import Mathlib

/-!
Verification of the S3 output sink (`src/cowrie/output/s3.py`).

The sink classifies incoming event records (file download, file upload,
generic event), derives a content key and a staged file, and runs a
dedup-and-upload state machine against a remote object store.

Shallow embedding conventions:
* A Python dict is an association list `Entry` of field name to `JVal`
  (insertion order preserved, as in Python 3.7+ dicts).
* `JVal.unserializable` stands for a Python value that the `json` module
  cannot serialize (it raises `TypeError` on it).
* The SHA-256 hex digest is an external capability (`hashlib`), passed in
  as an abstract function `hash : String → String` applied to the string
  handed to `sha1.update(... .encode("utf-8"))`.
* Remote calls (`head_object`, `put_object`) are oracles
  `String → ProbeResult` / `String → PutResult` indexed by key; the local
  filesystem is an association list from filename to byte content.
* An exception escaping a function is modelled by `Option`/an explicit
  failure outcome.
-/

namespace Cowrie

/-- A JSON-serializable (or not) Python value. `unserializable` models any
object `json.dump`/`json.dumps` rejects with `TypeError`. -/
inductive JVal where
  | str (s : String)
  | num (n : Int)
  | bool (b : Bool)
  | null
  | arr (xs : List JVal)
  | obj (fs : List (String × JVal))
  | unserializable

/-- A Python dict: association list in insertion order. -/
abbrev Entry := List (String × JVal)

/-- `entry[k]` lookup: first binding of `k` (dict keys are unique, the
first binding is the one). `none` models a `KeyError` / absent key. -/
def getVal (e : Entry) (k : String) : Option JVal :=
  (e.find? (fun p => p.1 == k)).map (fun p => p.2)

/-- Python truthiness of a value, as used by `if ... and entry["session"]:`.
An arbitrary (unserializable) Python object is truthy by default. -/
def truthy : JVal → Bool
  | .str s => !s.isEmpty
  | .num n => n != 0
  | .bool b => b
  | .null => false
  | .arr xs => !xs.isEmpty
  | .obj fs => !fs.isEmpty
  | .unserializable => true

/-- JSON string encoding of one character (quote and backslash escapes;
the control-character and non-ASCII escapes of `json` are not needed by
any record considered here). -/
def jsonEscapeChar (c : Char) : String :=
  if c = '"' then "\\\"" else if c = '\\' then "\\\\" else String.singleton c

/-- JSON string literal for `s` as `json.dumps` renders it. -/
def jsonQuote (s : String) : String :=
  "\"" ++ String.join (s.data.map jsonEscapeChar) ++ "\""

mutual
/-- `json.dumps` of one value with the given item and key separators;
`none` models the `TypeError` raised on an unserializable value. -/
def dumpVal (isep ksep : String) : JVal → Option String
  | .str s => some (jsonQuote s)
  | .num n => some (toString n)
  | .bool b => some (if b then "true" else "false")
  | .null => some "null"
  | .arr xs => (dumpArr isep ksep xs).map (fun body => "[" ++ body ++ "]")
  | .obj fs => (dumpObj isep ksep fs).map (fun body => "\x7b" ++ body ++ "\x7d")
  | .unserializable => none

/-- Serialize the elements of a JSON array, joined by the item separator. -/
def dumpArr (isep ksep : String) : List JVal → Option String
  | [] => some ""
  | [x] => dumpVal isep ksep x
  | x :: y :: xs =>
    match dumpVal isep ksep x, dumpArr isep ksep (y :: xs) with
    | some hd, some tl => some (hd ++ isep ++ tl)
    | _, _ => none

/-- Serialize the members of a JSON object, joined by the separators. -/
def dumpObj (isep ksep : String) : List (String × JVal) → Option String
  | [] => some ""
  | [(k, v)] => (dumpVal isep ksep v).map (fun s => jsonQuote k ++ ksep ++ s)
  | (k, v) :: m :: fs =>
    match dumpVal isep ksep v, dumpObj isep ksep (m :: fs) with
    | some hd, some tl => some (jsonQuote k ++ ksep ++ hd ++ isep ++ tl)
    | _, _ => none
end

/-- `json.dump(entry, f, separators=(",", ":"))`: compact serialization
written to the temporary staged file. -/
def dumpsCompact (e : Entry) : Option String := dumpVal "," ":" (.obj e)

/-- `json.dumps(entry)` with default separators `(", ", ": ")`: the
serialization fed to the SHA-256 hash. -/
def dumpsDefault (e : Entry) : Option String := dumpVal ", " ": " (.obj e)

/-- The key filter of the strip loop: `i.startswith("log_") or i == "time"
or i == "system"` ("Remove twisted 15 legacy keys"). The `startswith`
check is taken on the character list. -/
def legacyKey (k : String) : Bool :=
  "log_".data.isPrefixOf k.data || k = "time" || k = "system"

/-- The in-place `del entry[i]` loop: the entry with all legacy keys
removed. -/
def stripFields (e : Entry) : Entry :=
  e.filter (fun p => !legacyKey p.1)

def fileDownloadEvent : String := "cowrie.session.file_download"
def fileUploadEvent : String := "cowrie.session.file_upload"

/-- The staged file handed to `upload`: either the record's pre-existing
`outfile`, or the freshly written temp file with the given byte content. -/
inductive Staged where
  | existing (path : String)
  | temp (content : String)
  deriving DecidableEq

/-- Observable result of one `write` call. `entry` is the caller's mapping
as `write` leaves it (the `del` loop mutates it in place); `uploadCall` is
the single `self.upload(key, file)` call issued, if any; `serErrorLog` is
`some e` when the `except TypeError` branch printed `repr(e)` and the
error. -/
structure WriteResult where
  entry : Entry
  uploadCall : Option (String × Staged)
  serErrorLog : Option Entry

/-- The two file-artifact branches of `write`:
`self.upload(ns + entry["shasum"], entry["outfile"])`. `none` models an
uncaught exception (`KeyError` on a missing field, `TypeError` on the
concatenation with a non-string `shasum`; a non-string `outfile` also
fails, only later inside `upload`'s `open` — folded into the same error
as no claim distinguishes it). -/
def writeFileEvent (entry : Entry) (ns : String) : Option WriteResult :=
  match getVal entry "shasum", getVal entry "outfile" with
  | some (.str sh), some (.str out) =>
    some { entry := entry
           uploadCall := some (ns ++ sh, .existing out)
           serErrorLog := none }
  | _, _ => none

/-- The generic-event branch of `write`: strip legacy keys in place, dump
the stripped entry compactly to a temp file (plus a newline), hash the
default-separator dump of the same stripped entry, and upload under
`"cowrie/events/" + session + "-" + hexdigest` when the session value is
truthy. The `except TypeError` clause catches both serialization failures
and the concatenation failure on a truthy non-string session. -/
def writeGeneric (hash : String → String) (entry : Entry) : Option WriteResult :=
  match dumpsCompact (stripFields entry), dumpsDefault (stripFields entry) with
  | some fileJson, some hashJson =>
    match getVal (stripFields entry) "session" with
    | some (JVal.str s) =>
      if s.isEmpty then
        some { entry := stripFields entry, uploadCall := none, serErrorLog := none }
      else
        some { entry := stripFields entry
               uploadCall := some ("cowrie/events/" ++ s ++ "-" ++ hash hashJson,
                                   .temp (fileJson ++ "\n"))
               serErrorLog := none }
    | some sv =>
      if truthy sv then
        some { entry := stripFields entry, uploadCall := none
               serErrorLog := some (stripFields entry) }
      else
        some { entry := stripFields entry, uploadCall := none, serErrorLog := none }
    | none =>
      some { entry := stripFields entry, uploadCall := none, serErrorLog := none }
  | _, _ =>
    some { entry := stripFields entry, uploadCall := none
           serErrorLog := some (stripFields entry) }

/-- `Output.write`: dispatch on `entry["eventid"]`. A non-string
`eventid` compares unequal to both markers in Python, so it falls through
to the generic branch; an absent `eventid` raises `KeyError` (`none`). -/
def write (hash : String → String) (entry : Entry) : Option WriteResult :=
  match getVal entry "eventid" with
  | some (JVal.str ev) =>
    if ev = fileDownloadEvent then
      writeFileEvent entry "cowrie/downloads/"
    else if ev = fileUploadEvent then
      writeFileEvent entry "cowrie/uploads/"
    else
      writeGeneric hash entry
  | some _ => writeGeneric hash entry
  | none => none

/-- `True` iff `write` takes the generic-event branch on `e`: `eventid`
is present and is not one of the two file-event marker strings. -/
def isGeneric (e : Entry) : Bool :=
  match getVal e "eventid" with
  | some (JVal.str s) =>
    if s = fileDownloadEvent then false
    else if s = fileUploadEvent then false
    else true
  | some _ => true
  | none => false

/-- Outcome of `head_object` on a key: found, a 404 `ClientError`
(mapped to `False` by `_object_exists_remote`), or any other error
(re-raised). -/
inductive ProbeResult where
  | found
  | notFound
  | error
  deriving DecidableEq

/-- Outcome of `put_object` on a key. -/
inductive PutResult where
  | ok
  | error
  deriving DecidableEq

/-- How one `upload` call ends. The three `Failed` variants carry the
exception out of `upload` to its caller (probe error re-raised by
`_object_exists_remote`, `FileNotFoundError` from `open`, put error from
`put_object`). -/
inductive UploadOutcome where
  | skippedSeen
  | skippedExists
  | uploaded
  | probeFailed
  | openFailed
  | putFailed
  deriving DecidableEq

/-- A remote or filesystem side effect performed by `upload`, in order. -/
inductive Action where
  | probe (key : String)
  | put (key : String) (body : String) (contentType : String)
  | unlink (filename : String)
  deriving DecidableEq

/-- Local filesystem: filename to byte content. -/
abbrev FS := List (String × String)

/-- `open(name, "rb").read()`: `none` models `FileNotFoundError`. -/
def lookupFS (fs : FS) (name : String) : Option String :=
  (fs.find? (fun p => p.1 == name)).map (fun p => p.2)

/-- `os.unlink(name)`. -/
def unlinkFS (fs : FS) (name : String) : FS :=
  fs.filter (fun p => !(p.1 == name))

/-- The sink's mutable local state: the dedup cache `self.seen` and the
local filesystem holding staged files. -/
structure World where
  seen : Finset String
  fs : FS
  deriving DecidableEq

/-- `self.seen = set()` in `Output.start`: the dedup cache starts empty. -/
def startSeen : Finset String := ∅

/-- Result of one `upload` call: the state afterwards, how the call
ended, and the side effects it performed in order. -/
structure UploadResult where
  world : World
  outcome : UploadOutcome
  acts : List Action
  deriving DecidableEq

/-- `Output.upload(shasum, filename)` run to completion against the
remote oracles `probe` (`head_object` via `_object_exists_remote`) and
`putRes` (`put_object`). Fast path on `self.seen`; probe; on 404 read the
staged file, put the full bytes with the fixed content type, unlink, and
mark seen; on found mark seen without a put. -/
def upload (probe : String → ProbeResult) (putRes : String → PutResult)
    (w : World) (shasum filename : String) : UploadResult :=
  if shasum ∈ w.seen then
    { world := w, outcome := .skippedSeen, acts := [] }
  else
    match probe shasum with
    | .error => { world := w, outcome := .probeFailed, acts := [.probe shasum] }
    | .found =>
      { world := { w with seen := insert shasum w.seen }
        outcome := .skippedExists
        acts := [.probe shasum] }
    | .notFound =>
      match lookupFS w.fs filename with
      | none => { world := w, outcome := .openFailed, acts := [.probe shasum] }
      | some body =>
        match putRes shasum with
        | .error =>
          { world := w
            outcome := .putFailed
            acts := [.probe shasum, .put shasum body "application/octet-stream"] }
        | .ok =>
          { world := { seen := insert shasum w.seen, fs := unlinkFS w.fs filename }
            outcome := .uploaded
            acts := [.probe shasum, .put shasum body "application/octet-stream",
                     .unlink filename] }

/-- Whether an action is a `put_object` call. -/
def isPutAct : Action → Bool
  | .put _ _ _ => true
  | _ => false

/-- The `put_object` calls among a list of actions. -/
def putActs (acts : List Action) : List Action :=
  acts.filter isPutAct

/-! ### Concrete fixtures used by witnesses and counterexamples -/

/-- The file-download record of the spec's concrete scenario (§8). -/
def dlRecord : Entry :=
  [("eventid", .str fileDownloadEvent), ("shasum", .str "aaaa"),
   ("outfile", .str "/tmp/x")]

/-- A generic record with a session and one legacy (`time`) field. -/
def evRecord : Entry :=
  [("eventid", .str "other.event"), ("time", .str "t1"),
   ("session", .str "abc123")]

/-- A generic record with a session and an unserializable field value. -/
def badRecord : Entry :=
  [("eventid", .str "other.event"), ("session", .str "abc123"),
   ("payload", .unserializable)]

/-- A generic record carrying no session field at all. -/
def noSessionRecord : Entry :=
  [("eventid", .str "other.event"), ("data", .str "x")]

/-- Default-separator serialization of `stripFields evRecord`. -/
def evStrippedDefault : String :=
  "\x7b\"eventid\": \"other.event\", \"session\": \"abc123\"\x7d"

/-- Compact serialization of `stripFields evRecord`. -/
def evStrippedCompact : String :=
  "\x7b\"eventid\":\"other.event\",\"session\":\"abc123\"\x7d"

/-- An identity stand-in for the hex digest, used in concrete runs. -/
def idDigest : String → String := fun s => s

/-- Oracle: every probed key is absent remotely. -/
def probeAllAbsent : String → ProbeResult := fun _ => .notFound

/-- Oracle: every probed key is present remotely. -/
def probeAllPresent : String → ProbeResult := fun _ => .found

/-- Oracle: every probe fails with a non-404 error. -/
def probeAllFail : String → ProbeResult := fun _ => .error

/-- Oracle: every put succeeds. -/
def putAllOk : String → PutResult := fun _ => .ok

/-- Oracle: every put fails. -/
def putAllFail : String → PutResult := fun _ => .error

/-- A start-of-process world: empty dedup cache, one staged file. -/
def w0 : World := { seen := startSeen, fs := [("/tmp/x", "PAYLOAD")] }

/-! ### Helper lemmas -/

theorem getVal_cons (a : String) (b : JVal) (e : Entry) (k : String) :
    getVal ((a, b) :: e) k = if a = k then some b else getVal e k := by
  by_cases h : a = k <;> simp [getVal, List.find?_cons, h]

theorem getVal_stripFields (e : Entry) (k : String) (h : legacyKey k = false) :
    getVal (stripFields e) k = getVal e k := by
  induction e with
  | nil => rfl
  | cons p e ih =>
    obtain ⟨a, b⟩ := p
    by_cases hk : a = k
    · subst hk
      simp [stripFields, List.filter_cons, h, getVal_cons]
    · cases hp : legacyKey a <;>
        simp only [stripFields, List.filter_cons, hp, Bool.not_false, Bool.not_true,
          if_true, if_false, getVal_cons, hk] <;>
        simpa [stripFields] using ih

theorem getVal_stripFields_legacy (e : Entry) (k : String) (h : legacyKey k = true) :
    getVal (stripFields e) k = none := by
  induction e with
  | nil => rfl
  | cons p e ih =>
    obtain ⟨a, b⟩ := p
    by_cases hk : a = k
    · subst hk
      simp only [stripFields, List.filter_cons, h, Bool.not_true, if_false]
      simpa [stripFields] using ih
    · cases hp : legacyKey a <;>
        simp only [stripFields, List.filter_cons, hp, Bool.not_false, Bool.not_true,
          if_true, if_false, getVal_cons, hk] <;>
        simpa [stripFields] using ih

/-- On a generic record, `write` runs the generic branch. -/
theorem write_eq_writeGeneric (hash : String → String) (e : Entry)
    (h : isGeneric e = true) : write hash e = writeGeneric hash e := by
  unfold isGeneric at h
  unfold write
  cases hev : getVal e "eventid" with
  | none => rw [hev] at h; simp at h
  | some v =>
    rw [hev] at h
    cases v with
    | str s =>
      by_cases h1 : s = fileDownloadEvent
      · simp [h1] at h
      · by_cases h2 : s = fileUploadEvent
        · simp [h1, h2] at h
        · simp [h1, h2]
    | num n => rfl
    | bool b => rfl
    | null => rfl
    | arr xs => rfl
    | obj fs => rfl
    | unserializable => rfl

/-- The generic branch never raises: it always returns a result. -/
theorem writeGeneric_total (hash : String → String) (e : Entry) :
    ∃ r, writeGeneric hash e = some r := by
  unfold writeGeneric
  split
  · split
    · split
      · exact ⟨_, rfl⟩
      · exact ⟨_, rfl⟩
    · split
      · exact ⟨_, rfl⟩
      · exact ⟨_, rfl⟩
    · exact ⟨_, rfl⟩
  · exact ⟨_, rfl⟩

/-- Every result of the generic branch carries the stripped entry. -/
theorem writeGeneric_entry (hash : String → String) (e : Entry) (r : WriteResult)
    (hw : writeGeneric hash e = some r) : r.entry = stripFields e := by
  unfold writeGeneric at hw
  split at hw
  · split at hw
    · split at hw
      · cases hw; rfl
      · cases hw; rfl
    · split at hw
      · cases hw; rfl
      · cases hw; rfl
    · cases hw; rfl
  · cases hw; rfl

/-- Anatomy of an upload issued by the generic branch: the key embeds the
non-empty session and the digest of the default-separator dump of the
stripped entry, and the staged temp file holds the compact dump of the
same stripped entry plus a newline. -/
theorem writeGeneric_uploadCall (hash : String → String) (e : Entry)
    (r : WriteResult) (k : String) (st : Staged)
    (hw : writeGeneric hash e = some r) (hu : r.uploadCall = some (k, st)) :
    ∃ s fileJson hashJson,
      getVal e "session" = some (JVal.str s) ∧ s.isEmpty = false
      ∧ dumpsCompact (stripFields e) = some fileJson
      ∧ dumpsDefault (stripFields e) = some hashJson
      ∧ k = "cowrie/events/" ++ s ++ "-" ++ hash hashJson
      ∧ st = Staged.temp (fileJson ++ "\n") := by
  unfold writeGeneric at hw
  split at hw
  · rename_i fileJson hashJson hc hd
    split at hw
    · rename_i s hs
      split at hw
      · cases hw; simp at hu
      · rename_i hne
        cases hw
        simp only [Option.some.injEq, Prod.mk.injEq] at hu
        obtain ⟨hk, hst⟩ := hu
        refine ⟨s, fileJson, hashJson, ?_, ?_, hc, hd, hk.symm, hst.symm⟩
        · rw [← getVal_stripFields e "session" (by decide)]; exact hs
        · simpa using hne
    · rename_i sv hs hns
      split at hw <;> (cases hw; simp at hu)
    · cases hw; simp at hu
  · cases hw; simp at hu

/-- The dispatch of `write`: a successful call went through exactly one
of the three branches. -/
theorem write_cases (hash : String → String) (e : Entry) (r : WriteResult)
    (hw : write hash e = some r) :
    (getVal e "eventid" = some (JVal.str fileDownloadEvent)
        ∧ writeFileEvent e "cowrie/downloads/" = some r)
  ∨ (getVal e "eventid" = some (JVal.str fileUploadEvent)
        ∧ writeFileEvent e "cowrie/uploads/" = some r)
  ∨ (isGeneric e = true ∧ writeGeneric hash e = some r) := by
  unfold write at hw
  split at hw
  · rename_i ev hev
    by_cases h1 : ev = fileDownloadEvent
    · rw [if_pos h1] at hw
      exact Or.inl ⟨h1 ▸ hev, hw⟩
    · by_cases h2 : ev = fileUploadEvent
      · rw [if_neg h1, if_pos h2] at hw
        exact Or.inr (Or.inl ⟨h2 ▸ hev, hw⟩)
      · rw [if_neg h1, if_neg h2] at hw
        refine Or.inr (Or.inr ⟨?_, hw⟩)
        simp [isGeneric, hev, h1, h2]
  · rename_i v hns hev
    refine Or.inr (Or.inr ⟨?_, hw⟩)
    unfold isGeneric
    rw [hev]
    cases v with
    | str s => exact absurd rfl (hns s)
    | num n => rfl
    | bool b => rfl
    | null => rfl
    | arr xs => rfl
    | obj fs => rfl
    | unserializable => rfl
  · cases hw

/-- Anatomy of an upload issued by a file-event branch. -/
theorem writeFileEvent_uploadCall (e : Entry) (ns : String) (r : WriteResult)
    (k : String) (st : Staged) (hw : writeFileEvent e ns = some r)
    (hu : r.uploadCall = some (k, st)) :
    ∃ sh out, getVal e "shasum" = some (JVal.str sh)
      ∧ getVal e "outfile" = some (JVal.str out)
      ∧ k = ns ++ sh ∧ st = Staged.existing out := by
  unfold writeFileEvent at hw
  split at hw
  · rename_i sh out hsh hout
    cases hw
    simp only [Option.some.injEq, Prod.mk.injEq] at hu
    exact ⟨sh, out, hsh, hout, hu.1.symm, hu.2.symm⟩
  · cases hw

theorem lookupFS_unlinkFS (fs : FS) (name : String) :
    lookupFS (unlinkFS fs name) name = none := by
  induction fs with
  | nil => rfl
  | cons p fs ih =>
    by_cases hp : p.1 = name
    · simp only [unlinkFS, List.filter_cons, hp, beq_self_eq_true, Bool.not_true,
        if_false]
      simp only [unlinkFS] at ih
      exact ih
    · have hb : (p.1 == name) = false := by simpa using hp
      simp only [unlinkFS, List.filter_cons, hb, Bool.not_false, if_true,
        lookupFS, List.find?_cons]
      simp only [unlinkFS, lookupFS] at ih
      exact ih


/-! ### C1: key namespace -/

/-- C1 counterexample: on the spec's own file-download scenario record
(`shasum = "aaaa"`), the content key handed to upload is
`cowrie/downloads/aaaa`, not the `downloads/aaaa` the claim derives —
the code prefixes every namespace with `cowrie/`. -/
theorem write_key_namespace_counterexample :
    ((write idDigest dlRecord).map fun r => r.uploadCall.map Prod.fst)
      = some (some "cowrie/downloads/aaaa")
    ∧ ((write idDigest dlRecord).map fun r => r.uploadCall.map Prod.fst)
      ≠ some (some "downloads/aaaa") :=
  ⟨by decide, by decide⟩

/-- C1 (amended): every content key handed to upload follows the
`cowrie/`-prefixed namespace: a file-download record with content hash
`sh` yields `cowrie/downloads/` ++ `sh`, a file-upload record yields
`cowrie/uploads/` ++ `sh`, and a generic record with non-empty session
`s` yields `cowrie/events/` ++ `s` ++ `-` ++ the hex digest of the
serialized stripped record. -/
theorem write_key_namespace (hash : String → String) (e : Entry)
    (r : WriteResult) (k : String) (st : Staged) (hw : write hash e = some r)
    (hu : r.uploadCall = some (k, st)) :
    (∃ sh, getVal e "eventid" = some (JVal.str fileDownloadEvent)
        ∧ getVal e "shasum" = some (JVal.str sh)
        ∧ k = "cowrie/downloads/" ++ sh)
  ∨ (∃ sh, getVal e "eventid" = some (JVal.str fileUploadEvent)
        ∧ getVal e "shasum" = some (JVal.str sh)
        ∧ k = "cowrie/uploads/" ++ sh)
  ∨ (∃ s j, getVal e "session" = some (JVal.str s) ∧ s.isEmpty = false
        ∧ dumpsDefault (stripFields e) = some j
        ∧ k = "cowrie/events/" ++ s ++ "-" ++ hash j) := by
  rcases write_cases hash e r hw with ⟨hev, hf⟩ | ⟨hev, hf⟩ | ⟨hgen, hg⟩
  · obtain ⟨sh, out, hsh, hout, hk, hst⟩ :=
      writeFileEvent_uploadCall e "cowrie/downloads/" r k st hf hu
    exact Or.inl ⟨sh, hev, hsh, hk⟩
  · obtain ⟨sh, out, hsh, hout, hk, hst⟩ :=
      writeFileEvent_uploadCall e "cowrie/uploads/" r k st hf hu
    exact Or.inr (Or.inl ⟨sh, hev, hsh, hk⟩)
  · obtain ⟨s, fileJson, hashJson, hs, hne, hc, hd, hk, hst⟩ :=
      writeGeneric_uploadCall hash e r k st hg hu
    exact Or.inr (Or.inr ⟨s, hashJson, hs, hne, hd, hk⟩)

/-- C1 witness: the amended namespace theorem applied to the concrete
download record. -/
theorem write_key_namespace_witness :
    (∃ sh, getVal dlRecord "eventid" = some (JVal.str fileDownloadEvent)
        ∧ getVal dlRecord "shasum" = some (JVal.str sh)
        ∧ "cowrie/downloads/aaaa" = "cowrie/downloads/" ++ sh)
  ∨ (∃ sh, getVal dlRecord "eventid" = some (JVal.str fileUploadEvent)
        ∧ getVal dlRecord "shasum" = some (JVal.str sh)
        ∧ "cowrie/downloads/aaaa" = "cowrie/uploads/" ++ sh)
  ∨ (∃ s j, getVal dlRecord "session" = some (JVal.str s) ∧ s.isEmpty = false
        ∧ dumpsDefault (stripFields dlRecord) = some j
        ∧ "cowrie/downloads/aaaa" = "cowrie/events/" ++ s ++ "-" ++ idDigest j) :=
  write_key_namespace idDigest dlRecord
    ⟨dlRecord, some ("cowrie/downloads/aaaa", Staged.existing "/tmp/x"), none⟩
    "cowrie/downloads/aaaa" (Staged.existing "/tmp/x") rfl rfl


/-! ### C2: which bytes are hashed -/

/-- C2 counterexample: on a generic record carrying a legacy `time`
field, running with the identity digest shows the hash input embedded in
the event key is the default-separator serialization of the STRIPPED
record, which differs from both serializations of the original
(unstripped) record — so the hash is not computed over the original
record, and stripping does affect the hash. -/
theorem write_hash_input_counterexample :
    ((write idDigest evRecord).map fun r => r.uploadCall.map Prod.fst)
      = some (some ("cowrie/events/abc123-" ++ evStrippedDefault))
    ∧ dumpsDefault evRecord
      = some "\x7b\"eventid\": \"other.event\", \"time\": \"t1\", \"session\": \"abc123\"\x7d"
    ∧ dumpsCompact evRecord
      = some "\x7b\"eventid\":\"other.event\",\"time\":\"t1\",\"session\":\"abc123\"\x7d"
    ∧ evStrippedDefault
      ≠ "\x7b\"eventid\": \"other.event\", \"time\": \"t1\", \"session\": \"abc123\"\x7d"
    ∧ evStrippedDefault
      ≠ "\x7b\"eventid\":\"other.event\",\"time\":\"t1\",\"session\":\"abc123\"\x7d" :=
  ⟨by decide, by decide, by decide, by decide, by decide⟩

/-- C2 (amended): the content hash is computed over the default-separator
serialization of the record AFTER the legacy fields are stripped (the
strip mutates the record before any serialization), and the staged bytes
are the compact serialization of the same stripped record plus a newline
— stripping affects both the staged bytes and the hash. -/
theorem write_hash_over_stripped (hash : String → String) (e : Entry)
    (r : WriteResult) (k c : String) (hgen : isGeneric e = true)
    (hw : write hash e = some r)
    (hu : r.uploadCall = some (k, Staged.temp c)) :
    ∃ s fileJson hashJson,
      getVal e "session" = some (JVal.str s) ∧ s.isEmpty = false
      ∧ dumpsCompact (stripFields e) = some fileJson
      ∧ dumpsDefault (stripFields e) = some hashJson
      ∧ c = fileJson ++ "\n"
      ∧ k = "cowrie/events/" ++ s ++ "-" ++ hash hashJson := by
  rw [write_eq_writeGeneric hash e hgen] at hw
  obtain ⟨s, fileJson, hashJson, hs, hne, hc, hd, hk, hst⟩ :=
    writeGeneric_uploadCall hash e r k (Staged.temp c) hw hu
  cases hst
  exact ⟨s, fileJson, hashJson, hs, hne, hc, hd, rfl, hk⟩

/-- C2 witness: the amended theorem applied to the concrete generic
record with a `time` field, run with the identity digest. -/
theorem write_hash_over_stripped_witness :
    ∃ s fileJson hashJson,
      getVal evRecord "session" = some (JVal.str s) ∧ s.isEmpty = false
      ∧ dumpsCompact (stripFields evRecord) = some fileJson
      ∧ dumpsDefault (stripFields evRecord) = some hashJson
      ∧ evStrippedCompact ++ "\n" = fileJson ++ "\n"
      ∧ "cowrie/events/abc123-" ++ evStrippedDefault
        = "cowrie/events/" ++ s ++ "-" ++ idDigest hashJson :=
  write_hash_over_stripped idDigest evRecord
    ⟨stripFields evRecord,
     some ("cowrie/events/abc123-" ++ evStrippedDefault,
           Staged.temp (evStrippedCompact ++ "\n")), none⟩
    ("cowrie/events/abc123-" ++ evStrippedDefault) (evStrippedCompact ++ "\n")
    rfl rfl rfl


/-! ### C7: sessionless generic records are dropped -/

/-- C7: a generic record whose session field is absent or empty is
dropped: no upload call is issued by `write` (in particular no content
key is formed for it). -/
theorem write_sessionless_dropped (hash : String → String) (e : Entry)
    (r : WriteResult) (hgen : isGeneric e = true)
    (hsess : getVal e "session" = none ∨ getVal e "session" = some (JVal.str ""))
    (hw : write hash e = some r) : r.uploadCall = none := by
  rw [write_eq_writeGeneric hash e hgen] at hw
  cases hopt : r.uploadCall with
  | none => rfl
  | some p =>
    obtain ⟨k, st⟩ := p
    obtain ⟨s, fileJson, hashJson, hs, hne, _, _, _, _⟩ :=
      writeGeneric_uploadCall hash e r k st hw hopt
    rcases hsess with h | h
    · rw [h] at hs; cases hs
    · rw [h] at hs
      simp only [Option.some.injEq, JVal.str.injEq] at hs
      rw [← hs] at hne
      cases hne

/-- C7 witness: the drop theorem applied to a concrete generic record
with no session field. -/
theorem write_sessionless_dropped_witness :
    (⟨noSessionRecord, none, none⟩ : WriteResult).uploadCall = none :=
  write_sessionless_dropped idDigest noSessionRecord
    ⟨noSessionRecord, none, none⟩ rfl (Or.inl rfl) rfl

/-! ### C8: serialization failures are caught -/

/-- C8: processing a generic event never lets a serialization error
escape `write`: the call always returns; and when the serialization the
code performs (of the stripped record) fails, the record is dropped with
no upload call and its representation is logged with the error. -/
theorem write_serialization_error_handled (hash : String → String) (e : Entry)
    (hgen : isGeneric e = true) :
    ∃ r, write hash e = some r
      ∧ (dumpsCompact (stripFields e) = none →
          r.uploadCall = none ∧ r.serErrorLog = some (stripFields e)) := by
  rw [write_eq_writeGeneric hash e hgen]
  obtain ⟨r, hr⟩ := writeGeneric_total hash e
  refine ⟨r, hr, fun hc => ?_⟩
  unfold writeGeneric at hr
  rw [hc] at hr
  simp only [Option.some.injEq] at hr
  rw [← hr]
  exact ⟨rfl, rfl⟩

/-- C8 witness: the handling theorem applied to a concrete generic
record whose payload cannot be serialized. -/
theorem write_serialization_error_handled_witness :
    ∃ r, write idDigest badRecord = some r
      ∧ (dumpsCompact (stripFields badRecord) = none →
          r.uploadCall = none ∧ r.serErrorLog = some (stripFields badRecord)) :=
  write_serialization_error_handled idDigest badRecord rfl

/-! ### C10: in-place mutation of the caller record -/

/-- C10: on a generic record, `write` mutates the caller mapping in
place: after the call the record is exactly its stripped form, so every
field whose name starts with `log_` or equals `time` or `system` is gone
from it. -/
theorem write_strips_in_place (hash : String → String) (e : Entry)
    (r : WriteResult) (hgen : isGeneric e = true)
    (hw : write hash e = some r) :
    r.entry = stripFields e
    ∧ ∀ k, legacyKey k = true → getVal r.entry k = none := by
  rw [write_eq_writeGeneric hash e hgen] at hw
  have he := writeGeneric_entry hash e r hw
  exact ⟨he, fun k hk => he ▸ getVal_stripFields_legacy e k hk⟩

/-- C10 witness: after `write` processes the concrete record with a
`time` field, the caller record is the stripped form and the `time`
field is gone. -/
theorem write_strips_in_place_witness :
    (⟨[("eventid", JVal.str "other.event"), ("session", JVal.str "abc123")],
      some ("cowrie/events/abc123-" ++ evStrippedDefault,
            Staged.temp (evStrippedCompact ++ "\n")), none⟩ : WriteResult).entry
      = stripFields evRecord
    ∧ getVal (⟨[("eventid", JVal.str "other.event"),
        ("session", JVal.str "abc123")],
        some ("cowrie/events/abc123-" ++ evStrippedDefault,
              Staged.temp (evStrippedCompact ++ "\n")), none⟩
        : WriteResult).entry "time" = none := by
  have h := write_strips_in_place idDigest evRecord
    ⟨[("eventid", JVal.str "other.event"), ("session", JVal.str "abc123")],
     some ("cowrie/events/abc123-" ++ evStrippedDefault,
           Staged.temp (evStrippedCompact ++ "\n")), none⟩ rfl rfl
  exact ⟨h.1, h.2 "time" rfl⟩


/-! ### C3: not-found path -/

/-- C3: when the key is not cached and the probe reports not-found (and
the staged file is readable), exactly one put call is issued, carrying
the full file content and the fixed content type; on put success the
staged file is deleted and the key marked seen, and on put failure the
file survives and no unlink happens. -/
theorem upload_notfound_one_put (probe : String → ProbeResult)
    (putRes : String → PutResult) (w : World) (key fn body : String)
    (hseen : key ∉ w.seen) (hprobe : probe key = ProbeResult.notFound)
    (hfile : lookupFS w.fs fn = some body) :
    putActs (upload probe putRes w key fn).acts
      = [Action.put key body "application/octet-stream"]
    ∧ (putRes key = PutResult.ok →
        (upload probe putRes w key fn).acts
          = [Action.probe key, Action.put key body "application/octet-stream",
             Action.unlink fn]
        ∧ (upload probe putRes w key fn).outcome = UploadOutcome.uploaded
        ∧ lookupFS (upload probe putRes w key fn).world.fs fn = none
        ∧ key ∈ (upload probe putRes w key fn).world.seen)
    ∧ (putRes key = PutResult.error →
        (upload probe putRes w key fn).outcome = UploadOutcome.putFailed
        ∧ (upload probe putRes w key fn).world = w
        ∧ Action.unlink fn ∉ (upload probe putRes w key fn).acts) := by
  unfold upload
  rw [if_neg hseen, hprobe, hfile]
  cases hput : putRes key <;>
    simp [putActs, isPutAct, lookupFS_unlinkFS, Finset.mem_insert_self]

/-- C3 witness: a concrete run from an empty cache against an
all-absent store with a succeeding put. -/
theorem upload_notfound_one_put_witness :
    putActs (upload probeAllAbsent putAllOk w0 "cowrie/downloads/aaaa" "/tmp/x").acts
      = [Action.put "cowrie/downloads/aaaa" "PAYLOAD" "application/octet-stream"]
    ∧ (upload probeAllAbsent putAllOk w0 "cowrie/downloads/aaaa" "/tmp/x").acts
      = [Action.probe "cowrie/downloads/aaaa",
         Action.put "cowrie/downloads/aaaa" "PAYLOAD" "application/octet-stream",
         Action.unlink "/tmp/x"]
    ∧ lookupFS (upload probeAllAbsent putAllOk w0 "cowrie/downloads/aaaa"
        "/tmp/x").world.fs "/tmp/x" = none
    ∧ "cowrie/downloads/aaaa"
        ∈ (upload probeAllAbsent putAllOk w0 "cowrie/downloads/aaaa"
            "/tmp/x").world.seen := by
  have h := upload_notfound_one_put probeAllAbsent putAllOk w0
    "cowrie/downloads/aaaa" "/tmp/x" "PAYLOAD"
    (by simp [w0, startSeen]) rfl rfl
  exact ⟨h.1, (h.2.1 rfl).1, (h.2.1 rfl).2.2.1, (h.2.1 rfl).2.2.2⟩

/-! ### C4: probe errors propagate and mutate nothing -/

/-- C4: when the key is not cached and the probe fails with a non-404
error, no put call occurs, the error propagates out of `upload`, and the
local state (dedup cache and filesystem) is unchanged. -/
theorem upload_probe_error_propagates (probe : String → ProbeResult)
    (putRes : String → PutResult) (w : World) (key fn : String)
    (hseen : key ∉ w.seen) (hprobe : probe key = ProbeResult.error) :
    (upload probe putRes w key fn).outcome = UploadOutcome.probeFailed
    ∧ (upload probe putRes w key fn).world = w
    ∧ putActs (upload probe putRes w key fn).acts = [] := by
  unfold upload
  rw [if_neg hseen, hprobe]
  exact ⟨rfl, rfl, rfl⟩

/-- C4 witness: a concrete probe failure from an empty cache. -/
theorem upload_probe_error_propagates_witness :
    (upload probeAllFail putAllOk w0 "cowrie/downloads/aaaa" "/tmp/x").outcome
      = UploadOutcome.probeFailed
    ∧ (upload probeAllFail putAllOk w0 "cowrie/downloads/aaaa" "/tmp/x").world = w0
    ∧ putActs (upload probeAllFail putAllOk w0 "cowrie/downloads/aaaa"
        "/tmp/x").acts = [] :=
  upload_probe_error_propagates probeAllFail putAllOk w0
    "cowrie/downloads/aaaa" "/tmp/x" (by simp [w0, startSeen]) rfl

/-! ### C5: idempotence within one process -/

/-- C5: calling upload twice in sequence with the same key, the first
call succeeding, issues exactly one put call in total; the second call
is short-circuited by the dedup cache with no remote action at all. -/
theorem upload_twice_one_put (probe : String → ProbeResult)
    (putRes : String → PutResult) (w : World) (key fn fn2 body : String)
    (hseen : key ∉ w.seen) (hprobe : probe key = ProbeResult.notFound)
    (hfile : lookupFS w.fs fn = some body) (hput : putRes key = PutResult.ok) :
    putActs ((upload probe putRes w key fn).acts
        ++ (upload probe putRes (upload probe putRes w key fn).world key fn2).acts)
      = [Action.put key body "application/octet-stream"]
    ∧ (upload probe putRes (upload probe putRes w key fn).world key fn2).acts = []
    ∧ (upload probe putRes (upload probe putRes w key fn).world key fn2).outcome
        = UploadOutcome.skippedSeen
    ∧ (upload probe putRes (upload probe putRes w key fn).world key fn2).world
        = (upload probe putRes w key fn).world := by
  have h1 : upload probe putRes w key fn
      = { world := { seen := insert key w.seen, fs := unlinkFS w.fs fn }
          outcome := UploadOutcome.uploaded
          acts := [Action.probe key,
                   Action.put key body "application/octet-stream",
                   Action.unlink fn] } := by
    unfold upload
    rw [if_neg hseen, hprobe, hfile, hput]
  have h2 : upload probe putRes
        ({ seen := insert key w.seen, fs := unlinkFS w.fs fn } : World) key fn2
      = { world := { seen := insert key w.seen, fs := unlinkFS w.fs fn }
          outcome := UploadOutcome.skippedSeen
          acts := [] } := by
    unfold upload
    rw [if_pos (Finset.mem_insert_self key w.seen)]
  rw [h1, h2]
  exact ⟨by simp [putActs, isPutAct], rfl, rfl, rfl⟩

/-- C5 witness: two concrete back-to-back uploads of the same key. -/
theorem upload_twice_one_put_witness :
    putActs ((upload probeAllAbsent putAllOk w0 "cowrie/downloads/aaaa" "/tmp/x").acts
        ++ (upload probeAllAbsent putAllOk
            (upload probeAllAbsent putAllOk w0 "cowrie/downloads/aaaa"
              "/tmp/x").world "cowrie/downloads/aaaa" "/tmp/x").acts)
      = [Action.put "cowrie/downloads/aaaa" "PAYLOAD" "application/octet-stream"]
    ∧ (upload probeAllAbsent putAllOk
        (upload probeAllAbsent putAllOk w0 "cowrie/downloads/aaaa"
          "/tmp/x").world "cowrie/downloads/aaaa" "/tmp/x").acts = []
    ∧ (upload probeAllAbsent putAllOk
        (upload probeAllAbsent putAllOk w0 "cowrie/downloads/aaaa"
          "/tmp/x").world "cowrie/downloads/aaaa" "/tmp/x").outcome
        = UploadOutcome.skippedSeen
    ∧ (upload probeAllAbsent putAllOk
        (upload probeAllAbsent putAllOk w0 "cowrie/downloads/aaaa"
          "/tmp/x").world "cowrie/downloads/aaaa" "/tmp/x").world
        = (upload probeAllAbsent putAllOk w0 "cowrie/downloads/aaaa"
            "/tmp/x").world :=
  upload_twice_one_put probeAllAbsent putAllOk w0 "cowrie/downloads/aaaa"
    "/tmp/x" "/tmp/x" "PAYLOAD" (by simp [w0, startSeen]) rfl rfl rfl

/-! ### C6: existence short-circuit -/

/-- C6: when the key is not cached and the probe reports found, no put
call is issued, the key is marked seen, and the staged file is not
deleted. -/
theorem upload_exists_no_put (probe : String → ProbeResult)
    (putRes : String → PutResult) (w : World) (key fn : String)
    (hseen : key ∉ w.seen) (hprobe : probe key = ProbeResult.found) :
    putActs (upload probe putRes w key fn).acts = []
    ∧ (upload probe putRes w key fn).outcome = UploadOutcome.skippedExists
    ∧ key ∈ (upload probe putRes w key fn).world.seen
    ∧ (upload probe putRes w key fn).world.fs = w.fs := by
  unfold upload
  rw [if_neg hseen, hprobe]
  exact ⟨rfl, rfl, Finset.mem_insert_self key w.seen, rfl⟩

/-- C6 witness: a concrete run against an all-present store. -/
theorem upload_exists_no_put_witness :
    putActs (upload probeAllPresent putAllOk w0 "cowrie/downloads/aaaa"
      "/tmp/x").acts = []
    ∧ (upload probeAllPresent putAllOk w0 "cowrie/downloads/aaaa"
        "/tmp/x").outcome = UploadOutcome.skippedExists
    ∧ "cowrie/downloads/aaaa"
        ∈ (upload probeAllPresent putAllOk w0 "cowrie/downloads/aaaa"
            "/tmp/x").world.seen
    ∧ (upload probeAllPresent putAllOk w0 "cowrie/downloads/aaaa"
        "/tmp/x").world.fs = w0.fs :=
  upload_exists_no_put probeAllPresent putAllOk w0 "cowrie/downloads/aaaa"
    "/tmp/x" (by simp [w0, startSeen]) rfl

/-! ### C9: dedup cache lifecycle -/

/-- C9: the dedup cache starts empty, only ever grows across an upload
call, and any mutation is exactly the insertion of the uploaded key, and
happens only on the probe-found path or after a successful put (the two
outcomes `skippedExists` and `uploaded`); `write` itself has no access
to the cache. -/
theorem seen_cache_monotone (probe : String → ProbeResult)
    (putRes : String → PutResult) (w : World) (key fn : String) :
    startSeen = (∅ : Finset String)
    ∧ w.seen ⊆ (upload probe putRes w key fn).world.seen
    ∧ ((upload probe putRes w key fn).world.seen = w.seen
       ∨ ((upload probe putRes w key fn).world.seen = insert key w.seen
          ∧ ((upload probe putRes w key fn).outcome = UploadOutcome.skippedExists
             ∨ (upload probe putRes w key fn).outcome
                 = UploadOutcome.uploaded))) := by
  refine ⟨rfl, ?_⟩
  unfold upload
  by_cases hseen : key ∈ w.seen
  · rw [if_pos hseen]
    exact ⟨Finset.Subset.refl _, Or.inl rfl⟩
  · rw [if_neg hseen]
    cases hp : probe key with
    | found => exact ⟨Finset.subset_insert _ _, Or.inr ⟨rfl, Or.inl rfl⟩⟩
    | notFound =>
      cases hf : lookupFS w.fs fn with
      | none => exact ⟨Finset.Subset.refl _, Or.inl rfl⟩
      | some body =>
        cases hput : putRes key with
        | ok => exact ⟨Finset.subset_insert _ _, Or.inr ⟨rfl, Or.inr rfl⟩⟩
        | error => exact ⟨Finset.Subset.refl _, Or.inl rfl⟩
    | error => exact ⟨Finset.Subset.refl _, Or.inl rfl⟩

end Cowrie
